import Mathlib

/-!
Verification of the signal-parsing and order-construction engine of
`DiscordBot.py` (a Discord → MetaTrader 5 trade-signal bridge).

Shallow embedding conventions:
* Python floats are modelled as exact rationals (`ℚ`); the concrete
  counterexamples below only use values that are exactly representable
  as binary floats, so none of them depends on the float/rational gap.
* Python's `int()` applied to a float truncates toward zero: `pyInt`.
* Python exceptions are modelled with `Except PyErr`: a division whose
  divisor is zero raises `ZeroDivisionError` (`PyErr.zeroDivision`), a
  failed numeric conversion raises `ValueError` (`PyErr.valueError`),
  and an operation on `None` raises `TypeError` (`PyErr.typeError`).
  The `try/except` blocks wrapping `place_trade` and
  `place_multiple_orders` catch every exception and return `False`;
  the `...E` functions below are the bodies (exceptions visible), the
  undecorated functions are the bodies wrapped by that handler.
* The MetaTrader 5 terminal is an external collaborator; it is modelled
  by `Mt5Env`: the outcome of `mt5.symbol_select`, `mt5.account_info`,
  `mt5.symbol_info`, and a pure response function for `mt5.order_send`.
  Both place functions also return the list of requests actually passed
  to `mt5.order_send`, in call order.
* Order requests are Python dicts whose `"expiration"` and `"comment"`
  keys may be absent; absence is modelled by `Option` fields being
  `none`.
-/

/-- Python exception classes that the embedded code can raise. -/
inductive PyErr where
  | zeroDivision
  | typeError
  | valueError
deriving DecidableEq

/-- Python `abs` on a float, written out so that it reduces by `decide`. -/
def pyAbs (q : ℚ) : ℚ := if q < 0 then -q else q

/-- Python `int()` applied to a float: truncation toward zero. -/
def pyInt (q : ℚ) : ℤ := if 0 ≤ q then ⌊q⌋ else -⌊-q⌋

/-- Python `str.upper()` (ASCII is all the source ever feeds it). -/
def pyUpper (s : String) : String := ⟨s.data.map Char.toUpper⟩

/-- Decimal digit test for the regex class `\d` (ASCII). -/
def isDigitChar (c : Char) : Bool := c.isDigit

/-- Numeric value of a list of decimal digits. -/
def digitsVal (ds : List Char) : ℕ := ds.foldl (fun a c => 10 * a + (c.toNat - 48)) 0

/-- Python `float()` restricted to the unsigned decimal literals
(`digits`, `digits.digits`, `.digits`, `digits.`) that the signal
grammar can produce; every other string is a `ValueError` (`none`).
Exponents, signs, `inf`/`nan` and surrounding whitespace never reach
this call in the modelled code paths. -/
def pyFloatParts (s : String) : Option (ℕ × ℕ × ℕ) :=
  let ds1 := s.data.takeWhile isDigitChar
  let rest := s.data.dropWhile isDigitChar
  match rest with
  | [] => if ds1.isEmpty then none else some (digitsVal ds1, 0, 0)
  | '.' :: tl =>
      if tl.all isDigitChar && !(ds1.isEmpty && tl.isEmpty) then
        some (digitsVal ds1, digitsVal tl, tl.length)
      else none
  | _ => none

/-- The rational value `intPart.fracDigits` denoted by the literal. -/
def pyFloat (s : String) : Option ℚ :=
  (pyFloatParts s).map (fun p => (p.1 : ℚ) + (p.2.1 : ℚ) / (10 : ℚ) ^ p.2.2)

/-- Python `s.endswith('%')`. -/
def pyEndsWithPct (s : String) : Bool :=
  match s.data.getLast? with
  | some c => c = '%'
  | none => false

/-- Python `'%' in s`. -/
def pyContainsPct (s : String) : Bool := s.data.any (fun c => c = '%')

/-- Python `s[:-1]`. -/
def pyDropLast (s : String) : String := ⟨s.data.dropLast⟩

/-- Python `s.strip('%')`: removes leading and trailing `%` runs. -/
def pyStripPct (s : String) : String :=
  ⟨((s.data.dropWhile (fun c => c = '%')).reverse.dropWhile (fun c => c = '%')).reverse⟩

/-- `mt5.symbol_info(symbol)` result: the fields the bot reads. -/
structure SymbolInfo where
  trade_contract_size : ℚ
  point : ℚ
  trade_tick_value : ℚ
  volume_min : ℚ
  volume_max : ℚ
  volume_step : ℚ
deriving DecidableEq

/-- `mt5.account_info()` result: the bot only reads the balance. -/
structure AccountInfo where
  balance : ℚ
deriving DecidableEq

/-- `mt5.order_send` result: the bot only inspects `retcode`
(`mt5.TRADE_RETCODE_DONE = 10009`). -/
structure Mt5Result where
  retcode : ℕ
deriving DecidableEq

/-- The six concrete MT5 order type constants used by the bot. -/
inductive Mt5OrderType where
  | buyLimit | sellLimit | buyStop | sellStop | buy | sell
deriving DecidableEq

/-- `mt5.TRADE_ACTION_PENDING` / `mt5.TRADE_ACTION_DEAL`. -/
inductive TradeAction where
  | pending | deal
deriving DecidableEq

/-- `mt5.ORDER_TIME_GTC` / `mt5.ORDER_TIME_SPECIFIED`. -/
inductive TimeInForce where
  | gtc | specified
deriving DecidableEq

/-- `mt5.ORDER_FILLING_IOC` (the only fill policy the bot uses). -/
inductive FillPolicy where
  | ioc
deriving DecidableEq

/-- The order-request dict built by `place_trade` /
`place_multiple_orders`.  `expiration` and `comment` are dict keys that
may be absent (`none`). -/
structure OrderRequest where
  action : TradeAction
  symbol : String
  volume : ℚ
  otype : Mt5OrderType
  price : ℚ
  sl : ℚ
  tp : ℚ
  deviation : ℕ
  magic : ℕ
  filling : FillPolicy
  ttime : TimeInForce
  expiration : Option ℤ
  comment : Option String
deriving DecidableEq

/-- The MetaTrader 5 terminal as seen through the four calls the bot
makes; `orderResult req` is `mt5.order_send(req)` (`none` models the
call returning `None`). -/
structure Mt5Env where
  symbolSelect : Bool
  accountInfo : Option AccountInfo
  symbolInfo : Option SymbolInfo
  orderResult : OrderRequest → Option Mt5Result

/-- `mt5.TRADE_RETCODE_DONE`. -/
def TRADE_RETCODE_DONE : ℕ := 10009

/-- `calculate_lot_size(balance, risk_percentage, symbol, entry_price, sl)`
from `DiscordBot.py`.  The float conversions of `entry_price` and `sl`
always succeed here because the arguments are already rationals (in the
source they are strings produced by the numeric grammar).  A zero
`tick_size` (`symbol_info.point`) or a zero `volume_step` makes the
corresponding Python division raise `ZeroDivisionError`, which this
function does not catch.  Missing symbol info and a zero potential loss
per lot return `None` (`Option.none`). -/
def calculate_lot_size (env : Mt5Env) (balance risk_percentage : ℚ)
    (_symbol : String) (entry_price sl : ℚ) : Except PyErr (Option ℚ) :=
  let risk_amount := balance * (risk_percentage / 100)
  match env.symbolInfo with
  | none => .ok none
  | some si =>
    if si.point = 0 then .error .zeroDivision
    else
      let stop_loss_ticks := pyAbs (entry_price - sl) / si.point
      let potential_loss_per_lot := stop_loss_ticks * si.trade_tick_value
      if potential_loss_per_lot = 0 then .ok none
      else
        let lot_size := risk_amount / potential_loss_per_lot
        if lot_size < si.volume_min then .ok (some si.volume_min)
        else if lot_size > si.volume_max then .ok (some si.volume_max)
        else if si.volume_step = 0 then .error .zeroDivision
        else .ok (some ((pyInt (lot_size / si.volume_step) : ℚ) * si.volume_step))

/-- `datetime.now()` at build time: days since the epoch (1970-01-01,
a Thursday, so `weekday 0 = 3` in Python's Monday-0 convention) and
seconds within the day (`sec < 86400`; sub-second precision is dropped,
which is harmless because `int(...timestamp())` truncates and the code
only ever reads the timestamp of a second-aligned instant). -/
structure PyTime where
  day : ℕ
  sec : ℕ
deriving DecidableEq

/-- Python `datetime.weekday()`: Monday is 0, Sunday is 6. -/
def PyTime.weekday (t : PyTime) : ℕ := (t.day + 3) % 7

/-- `int(t.timestamp())` for a second-aligned instant. -/
def PyTime.timestamp (t : PyTime) : ℤ := t.day * 86400 + t.sec

/-- Python `(4 - current_time.weekday()) % 7` — Python `%` on a
negative left operand still yields a value in `[0, 7)`. -/
def pyDaysUntilFriday (t : PyTime) : ℕ := ((4 - (t.weekday : ℤ)) % 7).toNat

/-- Result of the `# Handle expiration` block shared verbatim by
`place_trade` and `place_multiple_orders`: either the request keeps the
default `ORDER_TIME_GTC` and no `"expiration"` key, or it gets
`ORDER_TIME_SPECIFIED` with the computed timestamp, or the expiration
string is invalid and the enclosing function returns `False`. -/
inductive ExpOutcome where
  | gtc
  | specified (ts : ℤ)
  | invalid
deriving DecidableEq

/-- The `if expiration:` block: `None` and the empty string are falsy
and keep GTC; `"DAY"` (after `.upper()`) expires at 23:59:59 of the
current day; `"WEEK"` expires at 23:59:59 of the day
`(4 - weekday) % 7` days ahead; anything else is invalid. -/
def expirationOutcome (now : PyTime) (expiration : Option String) : ExpOutcome :=
  match expiration with
  | none => .gtc
  | some e =>
    if e = "" then .gtc
    else if pyUpper e = "DAY" then .specified (now.day * 86400 + 86399)
    else if pyUpper e = "WEEK" then
      .specified ((now.day + pyDaysUntilFriday now) * 86400 + 86399)
    else .invalid

/-- The `# Determine order type for MT5` if-chain shared by
`place_trade` and `place_multiple_orders`. -/
def orderTypeMt5 (order_type order_kind : String) : Option Mt5OrderType :=
  if pyUpper order_kind = "LIMIT" then
    some (if pyUpper order_type = "BUY" then .buyLimit else .sellLimit)
  else if pyUpper order_kind = "STOP" then
    some (if pyUpper order_type = "BUY" then .buyStop else .sellStop)
  else if pyUpper order_kind = "MARKET" then
    some (if pyUpper order_type = "BUY" then .buy else .sell)
  else none

/-- The `if comment:` block: the `"comment"` key is added only when the
comment is truthy (present and nonempty). -/
def pyCommentField (comment : Option String) : Option String :=
  match comment with
  | some c => if c = "" then none else some c
  | none => none

/-- The `# Prepare order request` dict literal plus the expiration and
comment blocks, shared by `place_trade` and `place_multiple_orders`.
Note the `action` entry compares the RAW `order_kind` against
`"MARKET"` (no `.upper()`), exactly as in the source. -/
def mkRequest (order_kind symbol : String) (volume : ℚ) (otype : Mt5OrderType)
    (price sl tp : ℚ) (eo : ExpOutcome) (comment : Option String) : OrderRequest :=
  { action := if order_kind ≠ "MARKET" then .pending else .deal
    symbol := symbol
    volume := volume
    otype := otype
    price := price
    sl := sl
    tp := tp
    deviation := 20
    magic := 234000
    filling := .ioc
    ttime := match eo with | .specified _ => .specified | _ => .gtc
    expiration := match eo with | .specified ts => some ts | _ => none
    comment := pyCommentField comment }

/-- Body of `place_trade` with exceptions visible; the second component
is the list of requests passed to `mt5.order_send` (here `[]` or one
request).  The numeric conversions of `entry_price`, `sl`, `tp` always
succeed because the model passes rationals. -/
def place_tradeE (env : Mt5Env) (now : PyTime)
    (order_type order_kind symbol risk_or_lot : String)
    (entry_price sl tp : ℚ) (comment expiration : Option String) :
    Except PyErr Bool × List OrderRequest :=
  if env.symbolSelect = false then (.ok false, [])
  else
    match env.accountInfo with
    | none => (.ok false, [])
    | some account_info =>
      match env.symbolInfo with
      | none => (.ok false, [])
      | some symbol_info =>
        let volE : Except PyErr (Option ℚ) :=
          if pyContainsPct risk_or_lot then
            match pyFloat (pyStripPct risk_or_lot) with
            | none => .error .valueError
            | some risk_percentage =>
                calculate_lot_size env account_info.balance risk_percentage symbol entry_price sl
          else
            match pyFloat risk_or_lot with
            | none => .error .valueError
            | some v => .ok (some v)
        match volE with
        | .error err => (.error err, [])
        | .ok none => (.ok false, [])
        | .ok (some volume) =>
          if volume < symbol_info.volume_min ∨ volume > symbol_info.volume_max then
            (.ok false, [])
          else
            match orderTypeMt5 order_type order_kind with
            | none => (.ok false, [])
            | some otype =>
              let eo := expirationOutcome now expiration
              if eo = .invalid then (.ok false, [])
              else
                let req := mkRequest order_kind symbol volume otype entry_price sl tp eo comment
                match env.orderResult req with
                | none => (.ok false, [req])
                | some result =>
                    if result.retcode ≠ TRADE_RETCODE_DONE then (.ok false, [req])
                    else (.ok true, [req])

/-- `place_trade` as observed by callers: the surrounding
`try/except Exception` converts any raised exception into `False`. -/
def place_trade (env : Mt5Env) (now : PyTime)
    (order_type order_kind symbol risk_or_lot : String)
    (entry_price sl tp : ℚ) (comment expiration : Option String) :
    Bool × List OrderRequest :=
  match place_tradeE env now order_type order_kind symbol risk_or_lot entry_price sl tp comment expiration with
  | (.ok b, sent) => (b, sent)
  | (.error _, sent) => (false, sent)

/-- Sizing mode decided before the loop of `place_multiple_orders`:
`pct rpo` is `risk_percentage_per_order` (total divided by the order
count), `fixed v` is `fixed_lot_size = float(risk_or_lot)`. -/
inductive SizingMode where
  | pct (rpo : ℚ)
  | fixed (v : ℚ)
deriving DecidableEq

/-- Volume for one rung of the ladder.  `fixed 0` is falsy in Python,
so `if fixed_lot_size:` falls through to
`calculate_lot_size(balance, None, ...)`, where `None / 100` raises
`TypeError`. -/
def rungVolume (env : Mt5Env) (balance : ℚ) (mode : SizingMode)
    (symbol : String) (price sl : ℚ) : Except PyErr (Option ℚ) :=
  match mode with
  | .fixed v => if v = 0 then .error .typeError else .ok (some v)
  | .pct rpo => calculate_lot_size env balance rpo symbol price sl

/-- The `for i in range(num_orders)` loop of `place_multiple_orders`.
`fuel` is the number of remaining iterations, `i` the current index,
`acc` the requests already passed to `mt5.order_send`.  Comparing
`None` (a sizing failure) against `volume_min` raises `TypeError`. -/
def pmoLoop (env : Mt5Env) (now : PyTime) (si : SymbolInfo) (balance : ℚ)
    (mode : SizingMode) (order_type order_kind symbol : String)
    (entry_price price_step sl tp : ℚ) (comment expiration : Option String) :
    ℕ → ℕ → List OrderRequest → Except PyErr Bool × List OrderRequest
  | 0, _, acc => (.ok true, acc)
  | fuel + 1, i, acc =>
    let new_entry_price := entry_price + price_step * i
    match rungVolume env balance mode symbol new_entry_price sl with
    | .error err => (.error err, acc)
    | .ok none => (.error .typeError, acc)
    | .ok (some volume) =>
      if volume < si.volume_min ∨ volume > si.volume_max then (.ok false, acc)
      else
        match orderTypeMt5 order_type order_kind with
        | none => (.ok false, acc)
        | some otype =>
          let eo := expirationOutcome now expiration
          if eo = .invalid then (.ok false, acc)
          else
            let req := mkRequest order_kind symbol volume otype new_entry_price sl tp eo comment
            match env.orderResult req with
            | none => (.ok false, acc ++ [req])
            | some result =>
              if result.retcode ≠ TRADE_RETCODE_DONE then (.ok false, acc ++ [req])
              else
                pmoLoop env now si balance mode order_type order_kind symbol
                  entry_price price_step sl tp comment expiration fuel (i + 1) (acc ++ [req])

/-- Body of `place_multiple_orders` with exceptions visible.
`num_orders == 1` makes `(end_price - entry_price) / (num_orders - 1)`
a float division by zero (`ZeroDivisionError`); a percentage sizing
with `num_orders == 0` makes `total_risk_percentage / num_orders`
divide by zero as well. -/
def place_multiple_ordersE (env : Mt5Env) (now : PyTime)
    (order_type order_kind symbol risk_or_lot : String)
    (entry_price end_price : ℚ) (num_orders : ℕ) (sl tp : ℚ)
    (comment expiration : Option String) :
    Except PyErr Bool × List OrderRequest :=
  if env.symbolSelect = false then (.ok false, [])
  else
    match env.accountInfo with
    | none => (.ok false, [])
    | some account_info =>
      match env.symbolInfo with
      | none => (.ok false, [])
      | some symbol_info =>
        if num_orders = 1 then (.error .zeroDivision, [])
        else
          let price_step := (end_price - entry_price) / ((num_orders : ℚ) - 1)
          let modeE : Except PyErr SizingMode :=
            if pyEndsWithPct risk_or_lot then
              match pyFloat (pyDropLast risk_or_lot) with
              | none => .error .valueError
              | some total_risk_percentage =>
                  if num_orders = 0 then .error .zeroDivision
                  else .ok (.pct (total_risk_percentage / (num_orders : ℚ)))
            else
              match pyFloat risk_or_lot with
              | none => .error .valueError
              | some v => .ok (.fixed v)
          match modeE with
          | .error err => (.error err, [])
          | .ok mode =>
              pmoLoop env now symbol_info account_info.balance mode order_type order_kind
                symbol entry_price price_step sl tp comment expiration num_orders 0 []

/-- `place_multiple_orders` as observed by callers: the surrounding
`try/except Exception` converts any raised exception into `False`. -/
def place_multiple_orders (env : Mt5Env) (now : PyTime)
    (order_type order_kind symbol risk_or_lot : String)
    (entry_price end_price : ℚ) (num_orders : ℕ) (sl tp : ℚ)
    (comment expiration : Option String) :
    Bool × List OrderRequest :=
  match place_multiple_ordersE env now order_type order_kind symbol risk_or_lot
      entry_price end_price num_orders sl tp comment expiration with
  | (.ok b, sent) => (b, sent)
  | (.error _, sent) => (false, sent)

/-!
Signal grammar.  Both patterns in `DiscordBot.py` are of the shape
`G1 \s+ G2 \s+ ... \s+ Gk (?:\s+(DAY|WEEK))? (?:\s+([^\s]+))?` where no
group can match a whitespace character and every group is nonempty.
Under `re.match` (anchored at the start, trailing text ignored) each
mandatory group therefore consumes exactly one whitespace-delimited
token, except the final mandatory group `tp`, which has no trailing
`\s+` and may consume just a numeric PREFIX of its token (in which case
neither optional group can participate, since the next character is not
whitespace).  The optional expiration group may likewise match the
prefix `DAY`/`WEEK` of a longer token such as `DAYS`, in which case the
comment group cannot participate.  A line is modelled as its list of
whitespace-separated tokens (a line with leading whitespace never
matches either pattern and never reaches this model).
-/

/-- Regex class `\w` (ASCII fragment relevant to the source's inputs). -/
def isWordChar (c : Char) : Bool := c.isAlphanum || c = '_'

/-- Full-token match of `\w+`. -/
def isWordTok (s : String) : Bool := !s.data.isEmpty && s.data.all isWordChar

/-- Full-token match of `\d+` (the `num_orders` group). -/
def isDigitsTok (s : String) : Bool := !s.data.isEmpty && s.data.all isDigitChar

/-- Full match of `\d*\.?\d+` against a character list: `digits`, or
`digits? . digits`. -/
def isNumChars (cs : List Char) : Bool :=
  match cs.dropWhile isDigitChar with
  | [] => !cs.isEmpty
  | '.' :: tl => !tl.isEmpty && tl.all isDigitChar
  | _ => false

/-- Full-token match of the price groups `\d*\.?\d+`. -/
def isNumTok (s : String) : Bool := isNumChars s.data

/-- Full-token match of the sizing group `\d*\.?\d+%|\d*\.?\d+`. -/
def isSizingTok (s : String) : Bool :=
  (match s.data.getLast? with
   | some '%' => isNumChars s.data.dropLast
   | _ => false) || isNumChars s.data

/-- Greedy match of `\d*\.?\d+` against a prefix of a character list:
returns the matched characters and the unconsumed rest, or `none` when
no prefix matches.  (`"12."` matches `"12"` leaving `"."`; `".5x"`
matches `".5"` leaving `"x"`.) -/
def numPre (cs : List Char) : Option (List Char × List Char) :=
  let ds1 := cs.takeWhile isDigitChar
  let rest1 := cs.dropWhile isDigitChar
  match rest1 with
  | '.' :: tl =>
      let ds2 := tl.takeWhile isDigitChar
      if ds2.isEmpty then
        if ds1.isEmpty then none else some (ds1, rest1)
      else some (ds1 ++ '.' :: ds2, tl.dropWhile isDigitChar)
  | _ => if ds1.isEmpty then none else some (ds1, rest1)

/-- The two optional trailing groups
`(?:\s+(?P<expiration>DAY|WEEK))?(?:\s+(?P<comment>[^\s]+))?`.
`tpRest` is what the `tp` group left unconsumed of its token: when it
is nonempty no optional group can match.  The expiration group may
match the prefix `DAY`/`WEEK` of a longer token; only when it consumed
the whole token can the comment group still fire. -/
def optTail (tpRest : List Char) (rest : List String) : Option String × Option String :=
  if !tpRest.isEmpty then (none, none)
  else
    match rest with
    | [] => (none, none)
    | t8 :: rest2 =>
      if ("DAY".data).isPrefixOf t8.data then
        (some "DAY", if t8 = "DAY" then commentTok rest2 else none)
      else if ("WEEK".data).isPrefixOf t8.data then
        (some "WEEK", if t8 = "WEEK" then commentTok rest2 else none)
      else (none, commentTok (t8 :: rest2))
where
  /-- `(?:\s+([^\s]+))?`: the next token, when there is a nonempty one. -/
  commentTok : List String → Option String
    | [] => none
    | c :: _ => if c = "" then none else some c

/-- Named groups of the single-order pattern in `parse_trade_signal`. -/
structure SingleFields where
  order_type : String
  order_kind : String
  symbol : String
  risk_or_lot : String
  entry_price : String
  sl : String
  tp : String
  expiration : Option String
  comment : Option String
deriving DecidableEq

/-- Named groups of the multiple-orders pattern in
`parse_multiple_orders_signal`. -/
structure RangeFields where
  order_type : String
  order_kind : String
  symbol : String
  risk_or_lot : String
  entry_price_range : String
  end_price_range : String
  num_orders : String
  sl : String
  tp : String
  expiration : Option String
  comment : Option String
deriving DecidableEq

/-- `parse_trade_signal` over the token list of one line:
`(BUY|SELL) (LIMIT|STOP|MARKET) \w+ SIZING NUM NUM TP [DAY|WEEK] [COMMENT]`.
Keyword alternatives are matched case-SENSITIVELY, exactly as the
regex literals in the source. -/
def parse_trade_signal (ts : List String) : Option SingleFields :=
  match ts with
  | t1 :: t2 :: t3 :: t4 :: t5 :: t6 :: t7 :: rest =>
    if (t1 = "BUY" || t1 = "SELL") && (t2 = "LIMIT" || t2 = "STOP" || t2 = "MARKET")
        && isWordTok t3 && isSizingTok t4 && isNumTok t5 && isNumTok t6 then
      match numPre t7.data with
      | some (tpChars, tpRest) =>
        let oc := optTail tpRest rest
        some { order_type := t1, order_kind := t2, symbol := t3, risk_or_lot := t4,
               entry_price := t5, sl := t6, tp := ⟨tpChars⟩,
               expiration := oc.1, comment := oc.2 }
      | none => none
    else none
  | _ => none

/-- `parse_multiple_orders_signal` over the token list of one line:
`(BUY|SELL) (LIMIT|STOP) \w+ SIZING NUM NUM \d+ NUM TP [DAY|WEEK] [COMMENT]`
(no `MARKET` alternative in the kind group). -/
def parse_multiple_orders_signal (ts : List String) : Option RangeFields :=
  match ts with
  | t1 :: t2 :: t3 :: t4 :: t5 :: t6 :: t7 :: t8 :: t9 :: rest =>
    if (t1 = "BUY" || t1 = "SELL") && (t2 = "LIMIT" || t2 = "STOP")
        && isWordTok t3 && isSizingTok t4 && isNumTok t5 && isNumTok t6
        && isDigitsTok t7 && isNumTok t8 then
      match numPre t9.data with
      | some (tpChars, tpRest) =>
        let oc := optTail tpRest rest
        some { order_type := t1, order_kind := t2, symbol := t3, risk_or_lot := t4,
               entry_price_range := t5, end_price_range := t6, num_orders := t7,
               sl := t8, tp := ⟨tpChars⟩, expiration := oc.1, comment := oc.2 }
      | none => none
    else none
  | _ => none

/-- Per-line outcome of the dispatch in `on_message`. -/
inductive LineOutcome where
  | range (f : RangeFields)
  | single (f : SingleFields)
  | invalid
deriving DecidableEq

/-- The per-line dispatch of `on_message`: try the multiple-orders
grammar first, then the single-order grammar, else report an invalid
format. -/
def processLine (ts : List String) : LineOutcome :=
  match parse_multiple_orders_signal ts with
  | some f => .range f
  | none =>
    match parse_trade_signal ts with
    | some f => .single f
    | none => .invalid

/-- The single-order format description embedded in the invalid-format
reply of `on_message`. -/
def singleFormatDesc : String :=
  "ORDER_TYPE ORDER_KIND SYMBOL RISK_PERCENT ENTRY_PRICE SL TP [EXPIRATION] [COMMENT]"

/-- The multiple-orders format description embedded in the
invalid-format reply of `on_message`. -/
def rangeFormatDesc : String :=
  "ORDER_TYPE ORDER_KIND SYMBOL RISK_PERCENT/FIXED_LOT ENTRY_PRICE END_PRICE NUM_ORDERS SL TP [EXPIRATION] [COMMENT]"

/-- The user-facing reply `on_message` sends when neither grammar
matches a line. -/
def invalidMsg (line : String) : String :=
  "❌ Invalid signal format: " ++ line ++ "\nExpected format for single orders: "
    ++ singleFormatDesc ++ "\nExpected format for multiple orders: " ++ rangeFormatDesc

/-- `small` occurs as a contiguous substring of `big`. -/
def strContains (big small : String) : Prop :=
  ∃ a b : List Char, big.data = a ++ small.data ++ b

/-- A permissive symbol: tick size 1, tick value 1, volumes 1..100 in
steps of 1. -/
def siOK : SymbolInfo :=
  { trade_contract_size := 1, point := 1, trade_tick_value := 1,
    volume_min := 1, volume_max := 100, volume_step := 1 }

/-- A terminal that accepts everything: symbol selectable, balance 100,
symbol `siOK`, every order accepted with `TRADE_RETCODE_DONE`. -/
def envOK : Mt5Env :=
  { symbolSelect := true, accountInfo := some { balance := 100 },
    symbolInfo := some siOK, orderResult := fun _ => some { retcode := 10009 } }

/-- Thursday 1970-01-01 00:00:00. -/
def now0 : PyTime := { day := 0, sec := 0 }

/-- Friday 1970-01-02 23:59:59 — the last second of a Friday. -/
def nowFri : PyTime := { day := 1, sec := 86399 }

/-- A symbol whose `volume_min` (1) is NOT a multiple of its
`volume_step` (2) — otherwise identical to `siOK`. -/
def siC1 : SymbolInfo :=
  { trade_contract_size := 1, point := 1, trade_tick_value := 1,
    volume_min := 1, volume_max := 100, volume_step := 2 }

/-- `envOK` with symbol `siC1`. -/
def envC1 : Mt5Env :=
  { symbolSelect := true, accountInfo := some { balance := 100 },
    symbolInfo := some siC1, orderResult := fun _ => some { retcode := 10009 } }

/-- A terminal with no symbol info (`mt5.symbol_info` returns `None`). -/
def envNoInfo : Mt5Env :=
  { symbolSelect := true, accountInfo := some { balance := 100 },
    symbolInfo := none, orderResult := fun _ => some { retcode := 10009 } }

/-- A single-order line also carries "a second price and an order
count" usable by the range grammar precisely when token 7 (0-indexed 6,
read by the range pattern as `num_orders`) is a pure-integer token and
it is followed by a full price token and a token with a numeric prefix
(read as `sl` and `tp`).  A single-order line "lacking both a second
price and an order count" is one without this tail. -/
def hasRangeTail (ts : List String) : Bool :=
  match ts.get? 6, ts.get? 7, ts.get? 8 with
  | some c, some s, some t => isDigitsTok c && isNumTok s && (numPre t.data).isSome
  | _, _, _ => false

/-- What is known about a request that the loop of
`place_multiple_orders` passed to `mt5.order_send` for rung `idx`. -/
def rungReqSpec (env : Mt5Env) (now : PyTime) (si : SymbolInfo) (balance : ℚ)
    (mode : SizingMode) (order_type order_kind symbol : String)
    (entry_price price_step sl tp : ℚ) (comment expiration : Option String)
    (idx : ℕ) (req : OrderRequest) : Prop :=
  ∃ v otype,
    rungVolume env balance mode symbol (entry_price + price_step * idx) sl = .ok (some v) ∧
    ¬(v < si.volume_min ∨ v > si.volume_max) ∧
    orderTypeMt5 order_type order_kind = some otype ∧
    expirationOutcome now expiration ≠ .invalid ∧
    req = mkRequest order_kind symbol v otype (entry_price + price_step * idx) sl tp
            (expirationOutcome now expiration) comment

/-- `envOK` with a symbol whose tick size (`point`) is zero. -/
def envPt0 : Mt5Env :=
  { symbolSelect := true, accountInfo := some { balance := 100 },
    symbolInfo := some { trade_contract_size := 1, point := 0, trade_tick_value := 1,
                         volume_min := 1, volume_max := 100, volume_step := 1 },
    orderResult := fun _ => some { retcode := 10009 } }

/-- Loop invariant for `pmoLoop`: the requests sent by the remaining
iterations extend the accumulator by a block `L`, one request per
successful iteration, and the `j`-th element of `L` is the request
built for rung `i + j`. -/
theorem pmoLoop_spec (env : Mt5Env) (now : PyTime) (si : SymbolInfo) (balance : ℚ)
    (mode : SizingMode) (ot okind sym : String) (ep ps sl tp : ℚ)
    (c ex : Option String) :
    ∀ fuel i acc,
      ∃ L,
        (pmoLoop env now si balance mode ot okind sym ep ps sl tp c ex fuel i acc).2 = acc ++ L ∧
        L.length ≤ fuel ∧
        ((pmoLoop env now si balance mode ot okind sym ep ps sl tp c ex fuel i acc).1 = .ok true →
          L.length = fuel) ∧
        (∀ j req, L.get? j = some req →
          rungReqSpec env now si balance mode ot okind sym ep ps sl tp c ex (i + j) req) := by
  intro fuel
  induction fuel with
  | zero =>
    intro i acc
    exact ⟨[], by simp [pmoLoop], by simp, by simp [pmoLoop], by simp⟩
  | succ fuel ih =>
    intro i acc
    simp only [pmoLoop]
    cases hrv : rungVolume env balance mode sym (ep + ps * (i : ℚ)) sl with
    | error err =>
      exact ⟨[], by simp, by simp, by simp, by simp⟩
    | ok vo =>
      cases vo with
      | none =>
        exact ⟨[], by simp, by simp, by simp, by simp⟩
      | some volume =>
        by_cases hb : volume < si.volume_min ∨ volume > si.volume_max
        · simp only [hb, if_true]
          exact ⟨[], by simp, by simp, by simp, by simp⟩
        · simp only [hb, if_false]
          cases hot : orderTypeMt5 ot okind with
          | none =>
            exact ⟨[], by simp, by simp, by simp, by simp⟩
          | some otype =>
            by_cases heo : expirationOutcome now ex = ExpOutcome.invalid
            · simp only [heo, if_pos rfl]
              exact ⟨[], by simp, by simp, by simp, by simp⟩
            · simp only [if_neg heo]
              set req := mkRequest okind sym volume otype (ep + ps * (i : ℚ)) sl tp
                (expirationOutcome now ex) c with hreq
              cases hor : env.orderResult req with
              | none =>
                refine ⟨[req], by simp, by simp, by simp, ?_⟩
                intro j r hj
                cases j with
                | zero =>
                  simp at hj
                  subst hj
                  exact ⟨volume, otype, by simpa using hrv, hb, hot, heo, by simp [hreq]⟩
                | succ j => simp at hj
              | some result =>
                by_cases hrc : result.retcode = TRADE_RETCODE_DONE
                case neg =>
                  simp only [if_pos hrc]
                  refine ⟨[req], by simp, by simp, by simp, ?_⟩
                  intro j r hj
                  cases j with
                  | zero =>
                    simp at hj
                    subst hj
                    exact ⟨volume, otype, by simpa using hrv, hb, hot, heo, by simp [hreq]⟩
                  | succ j => simp at hj
                case pos =>
                  simp only [if_neg (not_not_intro hrc)]
                  obtain ⟨L', h2, hlen, hok, hspec⟩ := ih (i + 1) (acc ++ [req])
                  refine ⟨req :: L', ?_, ?_, ?_, ?_⟩
                  · rw [h2]; simp
                  · simpa using Nat.succ_le_succ hlen
                  · intro h; simpa using hok h
                  · intro j r hj
                    cases j with
                    | zero =>
                      simp at hj
                      subst hj
                      exact ⟨volume, otype, by simpa using hrv, hb, hot, heo, by simp [hreq]⟩
                    | succ j =>
                      have harith : i + 1 + j = i + (j + 1) := by omega
                      have := hspec j r (by simpa using hj)
                      rwa [harith] at this

/-- Every request that `place_trade` passes to `mt5.order_send` was
built by `mkRequest` from the call arguments, with a valid order kind
and a non-invalid expiration. -/
theorem place_tradeE_sent (env : Mt5Env) (now : PyTime)
    (ot okind sym rl : String) (ep slp tpp : ℚ) (c ex : Option String) :
    ∀ req ∈ (place_tradeE env now ot okind sym rl ep slp tpp c ex).2,
      ∃ v otype, orderTypeMt5 ot okind = some otype ∧
        expirationOutcome now ex ≠ .invalid ∧
        req = mkRequest okind sym v otype ep slp tpp (expirationOutcome now ex) c := by
  unfold place_tradeE
  intro req hreq
  repeat' split at hreq
  all_goals try simp at hreq
  all_goals repeat' split at hreq
  all_goals try simp at hreq
  all_goals subst hreq
  all_goals exact ⟨_, _, by assumption, by assumption, rfl⟩

theorem place_trade_snd (env : Mt5Env) (now : PyTime)
    (ot okind sym rl : String) (ep slp tpp : ℚ) (c ex : Option String) :
    (place_trade env now ot okind sym rl ep slp tpp c ex).2
      = (place_tradeE env now ot okind sym rl ep slp tpp c ex).2 := by
  unfold place_trade
  cases hE : place_tradeE env now ot okind sym rl ep slp tpp c ex with
  | mk r s => cases r <;> simp

theorem place_multiple_orders_snd (env : Mt5Env) (now : PyTime)
    (ot okind sym rl : String) (ep eq2 : ℚ) (n : ℕ) (slp tpp : ℚ) (c ex : Option String) :
    (place_multiple_orders env now ot okind sym rl ep eq2 n slp tpp c ex).2
      = (place_multiple_ordersE env now ot okind sym rl ep eq2 n slp tpp c ex).2 := by
  unfold place_multiple_orders
  cases hE : place_multiple_ordersE env now ot okind sym rl ep eq2 n slp tpp c ex with
  | mk r s => cases r <;> simp

theorem place_multiple_orders_ok (env : Mt5Env) (now : PyTime)
    (ot okind sym rl : String) (ep eq2 : ℚ) (n : ℕ) (slp tpp : ℚ) (c ex : Option String) :
    (place_multiple_orders env now ot okind sym rl ep eq2 n slp tpp c ex).1 = true →
      (place_multiple_ordersE env now ot okind sym rl ep eq2 n slp tpp c ex).1 = .ok true := by
  unfold place_multiple_orders
  cases hE : place_multiple_ordersE env now ot okind sym rl ep eq2 n slp tpp c ex with
  | mk r s => cases r <;> simp_all

/-- Every request that `place_multiple_orders` passes to
`mt5.order_send` was built by `mkRequest` from the call arguments. -/
theorem place_multiple_ordersE_sent (env : Mt5Env) (now : PyTime)
    (ot okind sym rl : String) (ep eq2 : ℚ) (n : ℕ) (slp tpp : ℚ)
    (c ex : Option String) :
    ∀ req ∈ (place_multiple_ordersE env now ot okind sym rl ep eq2 n slp tpp c ex).2,
      ∃ v otype price, orderTypeMt5 ot okind = some otype ∧
        expirationOutcome now ex ≠ .invalid ∧
        req = mkRequest okind sym v otype price slp tpp (expirationOutcome now ex) c := by
  intro req hreq
  unfold place_multiple_ordersE at hreq
  repeat' split at hreq
  all_goals try simp at hreq
  all_goals {
    obtain ⟨L, h2, -, -, hspec⟩ :=
      pmoLoop_spec env now _ _ _ ot okind sym ep _ slp tpp c ex n 0 []
    rw [h2] at hreq
    simp at hreq
    obtain ⟨j, hj⟩ := List.mem_iff_get?.mp hreq
    obtain ⟨v, otype, hrv, hb, hot, heo, hmk⟩ := hspec j req hj
    exact ⟨v, otype, _, hot, heo, hmk⟩ }

theorem pyInt_of_nonneg (q : ℚ) (h : 0 ≤ q) : pyInt q = ⌊q⌋ := by
  simp [pyInt, h]

theorem pyAbs_pos (q : ℚ) (h : q ≠ 0) : 0 < pyAbs q := by
  unfold pyAbs
  rcases lt_trichotomy q 0 with h1 | h1 | h1
  · simp [h1]
  · exact absurd h1 h
  · simp [not_lt.mpr (le_of_lt h1)]; exact h1

theorem daysUntilFriday_facts (t : PyTime) :
    (t.day + pyDaysUntilFriday t + 3) % 7 = 4 ∧ pyDaysUntilFriday t ≤ 6 ∧
      (pyDaysUntilFriday t = 0 ↔ t.weekday = 4) := by
  unfold pyDaysUntilFriday PyTime.weekday
  omega

theorem expOut_day (now : PyTime) :
    expirationOutcome now (some "DAY") = .specified (now.day * 86400 + 86399) := rfl

theorem expOut_week (now : PyTime) :
    expirationOutcome now (some "WEEK")
      = .specified ((now.day + pyDaysUntilFriday now) * 86400 + 86399) := rfl

theorem expOut_none_gtc (now : PyTime) : expirationOutcome now none = .gtc := rfl

theorem pyFloat_lit_1 : pyFloat "1" = some 1 := by
  have h : pyFloatParts "1" = some (1, 0, 0) := by decide
  simp [pyFloat, h]

theorem pyFloat_lit_2 : pyFloat "2" = some 2 := by
  have h : pyFloatParts "2" = some (2, 0, 0) := by decide
  simp [pyFloat, h]

theorem pyFloat_lit_5 : pyFloat "5" = some 5 := by
  have h : pyFloatParts "5" = some (5, 0, 0) := by decide
  simp [pyFloat, h]

theorem pyFloat_lit_10 : pyFloat "10" = some 10 := by
  have h : pyFloatParts "10" = some (10, 0, 0) := by decide
  simp [pyFloat, h]

theorem pyFloat_lit_half : pyFloat "0.5" = some (1 / 2) := by
  have h : pyFloatParts "0.5" = some (0, 5, 1) := by decide
  simp [pyFloat, h]; norm_num

theorem pyFloat_lit_005 : pyFloat "0.05" = some (1 / 20) := by
  have h : pyFloatParts "0.05" = some (0, 5, 2) := by decide
  simp [pyFloat, h]; norm_num

theorem orderTypeMt5_buy_limit : orderTypeMt5 "BUY" "LIMIT" = some .buyLimit := by decide

theorem pyAbs_ne_zero (q : ℚ) (h : q ≠ 0) : pyAbs q ≠ 0 := ne_of_gt (pyAbs_pos q h)

/-- C7: `calculate_lot_size` fails with a sizing error (no volume)
whenever `tick_size` is zero (uncaught `ZeroDivisionError`) or the
symbol info is unavailable (`None`), and whenever the potential loss
per lot is zero because entry equals stop or the tick value is zero
(`None`); whenever it does return a volume, none of those degenerate
conditions held. -/
theorem c7_sizing_errors (env : Mt5Env) (balance r : ℚ) (sym : String) (entry sl : ℚ) :
    (env.symbolInfo = none → calculate_lot_size env balance r sym entry sl = .ok none) ∧
    (∀ si, env.symbolInfo = some si → si.point = 0 →
      calculate_lot_size env balance r sym entry sl = .error .zeroDivision) ∧
    (∀ si, env.symbolInfo = some si → si.point ≠ 0 → (entry = sl ∨ si.trade_tick_value = 0) →
      calculate_lot_size env balance r sym entry sl = .ok none) ∧
    (∀ v, calculate_lot_size env balance r sym entry sl = .ok (some v) →
      ∃ si, env.symbolInfo = some si ∧ si.point ≠ 0 ∧ entry ≠ sl ∧ si.trade_tick_value ≠ 0) := by
  refine ⟨?_, ?_, ?_, ?_⟩
  · intro h; simp [calculate_lot_size, h]
  · intro si hsi hpt; simp [calculate_lot_size, hsi, hpt]
  · intro si hsi hpt hz
    rcases hz with hz | hz
    · simp [calculate_lot_size, hsi, hpt, hz, pyAbs]
    · simp [calculate_lot_size, hsi, hpt, hz]
  · intro v hv
    cases hsi : env.symbolInfo with
    | none => simp [calculate_lot_size, hsi] at hv
    | some si =>
      by_cases hpt : si.point = 0
      · simp [calculate_lot_size, hsi, hpt] at hv
      · refine ⟨si, rfl, hpt, ?_, ?_⟩
        · intro he
          subst he
          simp [calculate_lot_size, hsi, hpt, pyAbs] at hv
        · intro htv
          simp [calculate_lot_size, hsi, hpt, htv] at hv

/-- C1 (amended): lot-size clamping. -/
theorem c1_lot_size_clamp (env : Mt5Env) (si : SymbolInfo) (balance r : ℚ) (sym : String)
    (entry sl : ℚ) (hsi : env.symbolInfo = some si) (hbal : 0 < balance)
    (hes : entry ≠ sl) (hpt : 0 < si.point) (htv : 0 < si.trade_tick_value)
    (hstep : 0 < si.volume_step) (hmm : si.volume_min ≤ si.volume_max)
    (hdvd : ∃ k : ℕ, si.volume_min = (k : ℚ) * si.volume_step) :
    ∃ v, calculate_lot_size env balance r sym entry sl = .ok (some v) ∧
      si.volume_min ≤ v ∧ v ≤ si.volume_max ∧
      ∀ raw : ℚ,
        raw = balance * (r / 100) / (pyAbs (entry - sl) / si.point * si.trade_tick_value) →
        si.volume_min ≤ raw → raw ≤ si.volume_max →
        v ≤ raw ∧ (∃ m : ℤ, v = (m : ℚ) * si.volume_step) ∧
          ∀ j : ℤ, (j : ℚ) * si.volume_step ≤ raw → (j : ℚ) * si.volume_step ≤ v := by
  obtain ⟨k, hk⟩ := hdvd
  have hpt' : si.point ≠ 0 := ne_of_gt hpt
  have habs : 0 < pyAbs (entry - sl) := pyAbs_pos _ (sub_ne_zero_of_ne hes)
  have hloss : 0 < pyAbs (entry - sl) / si.point * si.trade_tick_value :=
    mul_pos (div_pos habs hpt) htv
  have hloss' : pyAbs (entry - sl) / si.point * si.trade_tick_value ≠ 0 := ne_of_gt hloss
  set lot := balance * (r / 100) / (pyAbs (entry - sl) / si.point * si.trade_tick_value)
    with hlot
  have key : calculate_lot_size env balance r sym entry sl =
      (if lot < si.volume_min then .ok (some si.volume_min)
       else if lot > si.volume_max then .ok (some si.volume_max)
       else .ok (some ((pyInt (lot / si.volume_step) : ℚ) * si.volume_step))) := by
    simp only [calculate_lot_size, hsi]
    rw [if_neg hpt', if_neg hloss', if_neg (ne_of_gt hstep)]
  rcases lt_or_ge lot si.volume_min with h1 | h1
  · refine ⟨si.volume_min, by rw [key, if_pos h1], le_refl _, hmm, ?_⟩
    intro raw hraw hmin hmax
    rw [hraw] at hmin
    exact absurd (lt_of_le_of_lt hmin h1) (lt_irrefl _)
  · rcases lt_or_ge si.volume_max lot with h2 | h2
    · refine ⟨si.volume_max, by rw [key, if_neg (not_lt.mpr h1), if_pos h2], hmm, le_refl _, ?_⟩
      intro raw hraw hmin hmax
      rw [hraw] at hmax
      exact absurd (lt_of_le_of_lt hmax h2) (lt_irrefl _)
    · have h0min : (0 : ℚ) ≤ si.volume_min := by
        rw [hk]
        positivity
      have h0lot : 0 ≤ lot := le_trans h0min h1
      have hfl : pyInt (lot / si.volume_step) = ⌊lot / si.volume_step⌋ :=
        pyInt_of_nonneg _ (div_nonneg h0lot (le_of_lt hstep))
      have hveq : ((pyInt (lot / si.volume_step) : ℚ) * si.volume_step)
          = (⌊lot / si.volume_step⌋ : ℚ) * si.volume_step := by rw [hfl]
      have hvle : ((pyInt (lot / si.volume_step) : ℚ) * si.volume_step) ≤ lot := by
        rw [hveq]
        calc ((⌊lot / si.volume_step⌋ : ℚ)) * si.volume_step
            ≤ (lot / si.volume_step) * si.volume_step :=
              mul_le_mul_of_nonneg_right (Int.floor_le _) (le_of_lt hstep)
          _ = lot := div_mul_cancel₀ _ (ne_of_gt hstep)
      have hminv : si.volume_min ≤ ((pyInt (lot / si.volume_step) : ℚ) * si.volume_step) := by
        rw [hveq]
        have hq : ((k : ℤ) : ℚ) ≤ lot / si.volume_step := by
          rw [le_div_iff₀ hstep]
          push_cast
          rw [← hk]
          exact h1
        have hkf : (k : ℤ) ≤ ⌊lot / si.volume_step⌋ := Int.le_floor.mpr hq
        calc si.volume_min = (k : ℚ) * si.volume_step := hk
          _ ≤ (⌊lot / si.volume_step⌋ : ℚ) * si.volume_step :=
              mul_le_mul_of_nonneg_right (by exact_mod_cast hkf) (le_of_lt hstep)
      refine ⟨_, by rw [key, if_neg (not_lt.mpr h1), if_neg (not_lt.mpr h2)], hminv,
        le_trans hvle h2, ?_⟩
      intro raw hraw hmin hmax
      have hrl : raw = lot := hraw
      subst hrl
      refine ⟨hvle, ⟨⌊lot / si.volume_step⌋, hveq⟩, ?_⟩
      intro j hj
      rw [hveq]
      have hq : (j : ℚ) ≤ lot / si.volume_step := (le_div_iff₀ hstep).mpr hj
      have hjf : j ≤ ⌊lot / si.volume_step⌋ := Int.le_floor.mpr hq
      exact mul_le_mul_of_nonneg_right (by exact_mod_cast hjf) (le_of_lt hstep)

/-- C1 (counterexample): all of the claim's hypotheses hold — balance
100 > 0, risk 1, entry 1 ≠ stop 0, tick size 1 > 0, tick value 1 > 0 —
yet with `volume_min = 1`, `volume_max = 100`, `volume_step = 2` the
raw volume is 1 (inside the bounds), truncation to a step multiple
yields 0, and the returned volume 0 lies BELOW `volume_min`, outside
`[volume_min, volume_max]`. -/
theorem c1_clamp_below_min :
    calculate_lot_size envC1 100 1 "EURUSD" 1 0 = .ok (some 0) ∧
    (0 : ℚ) < 100 ∧ ((1 : ℚ)) ≠ ((0 : ℚ)) ∧ 0 < siC1.point ∧ 0 < siC1.trade_tick_value ∧
    ¬ siC1.volume_min ≤ 0 := by
  refine ⟨?_, by norm_num, by norm_num, by norm_num [siC1], by norm_num [siC1],
    by norm_num [siC1]⟩
  norm_num [calculate_lot_size, envC1, siC1, pyAbs, pyInt]

/-- C1 (witness): the amended theorem applied at balance 100, risk 10%,
entry 2, stop 1 on `siOK`, where the raw volume is 10. -/
theorem c1_lot_size_clamp_witness :
    ∃ v, calculate_lot_size envOK 100 10 "EURUSD" 2 1 = .ok (some v) ∧
      siOK.volume_min ≤ v ∧ v ≤ siOK.volume_max ∧
      ∀ raw : ℚ,
        raw = 100 * ((10 : ℚ) / 100) / (pyAbs ((2 : ℚ) - 1) / siOK.point * siOK.trade_tick_value) →
        siOK.volume_min ≤ raw → raw ≤ siOK.volume_max →
        v ≤ raw ∧ (∃ m : ℤ, v = (m : ℚ) * siOK.volume_step) ∧
          ∀ j : ℤ, (j : ℚ) * siOK.volume_step ≤ raw → (j : ℚ) * siOK.volume_step ≤ v :=
  c1_lot_size_clamp envOK siOK 100 10 "EURUSD" 2 1 rfl (by norm_num) (by norm_num)
    (by norm_num [siOK]) (by norm_num [siOK]) (by norm_num [siOK]) (by norm_num [siOK])
    ⟨1, by norm_num [siOK]⟩

/-- C7 (witness): the error cases at concrete inputs — missing symbol
info returns no volume; zero tick size raises; entry = stop returns no
volume. -/
theorem c7_sizing_errors_witness :
    calculate_lot_size envNoInfo 100 1 "EURUSD" 2 1 = .ok none ∧
    calculate_lot_size envPt0 100 1 "EURUSD" 2 1 = .error .zeroDivision ∧
    calculate_lot_size envOK 100 1 "EURUSD" 1 1 = .ok none := by
  refine ⟨(c7_sizing_errors envNoInfo 100 1 "EURUSD" 2 1).1 rfl,
    (c7_sizing_errors envPt0 100 1 "EURUSD" 2 1).2.1 _ rfl rfl,
    (c7_sizing_errors envOK 100 1 "EURUSD" 1 1).2.2.1 siOK rfl (by norm_num [siOK]) (Or.inl rfl)⟩

theorem pyContainsPct_1 : pyContainsPct "1" = false := by decide

/-- C3 (amended): a DAY order is built with expiry 23:59:59 of the
build-time calendar day; a WEEK order is built with expiry 23:59:59 of
the day `(4 − weekday) mod 7` days ahead, which is a Friday; that expiry
is strictly in the future iff the build instant is NOT Friday 23:59:59
— the code never advances to the following week. -/
theorem c3_expiration (env : Mt5Env) (now : PyTime)
    (ot okind sym rl : String) (ep slp tpp : ℚ) (c : Option String)
    (hsec : now.sec < 86400) :
    (∀ req ∈ (place_trade env now ot okind sym rl ep slp tpp c (some "DAY")).2,
        req.expiration = some (now.day * 86400 + 86399)) ∧
    (∀ req ∈ (place_trade env now ot okind sym rl ep slp tpp c (some "WEEK")).2,
        req.expiration = some ((now.day + pyDaysUntilFriday now) * 86400 + 86399) ∧
        (now.day + pyDaysUntilFriday now + 3) % 7 = 4 ∧
        (now.timestamp < ((now.day + pyDaysUntilFriday now) * 86400 + 86399 : ℤ) ↔
          ¬(now.weekday = 4 ∧ now.sec = 86399))) := by
  constructor
  · intro req hreq
    rw [place_trade_snd] at hreq
    obtain ⟨v, otype, -, -, hmk⟩ :=
      place_tradeE_sent env now ot okind sym rl ep slp tpp c (some "DAY") req hreq
    rw [hmk, expOut_day]
    simp [mkRequest]
  · intro req hreq
    rw [place_trade_snd] at hreq
    obtain ⟨v, otype, -, -, hmk⟩ :=
      place_tradeE_sent env now ot okind sym rl ep slp tpp c (some "WEEK") req hreq
    obtain ⟨hfri, hle, hiff⟩ := daysUntilFriday_facts now
    refine ⟨by rw [hmk, expOut_week]; simp [mkRequest], hfri, ?_⟩
    unfold PyTime.timestamp
    constructor
    · intro hlt hand
      obtain ⟨hw, hs⟩ := hand
      have hd0 : pyDaysUntilFriday now = 0 := hiff.mpr hw
      rw [hd0] at hlt
      omega
    · intro hno
      by_cases hd0 : pyDaysUntilFriday now = 0
      · have hw := hiff.mp hd0
        have hs : now.sec ≠ 86399 := fun hs => hno ⟨hw, hs⟩
        rw [hd0]
        omega
      · have h1 : 1 ≤ pyDaysUntilFriday now := Nat.one_le_iff_ne_zero.mpr hd0
        omega

/-- C3 (witness): the amended theorem at Thursday 1970-01-01 00:00:00;
the DAY expiry is 23:59:59 of that day. -/
theorem c3_expiration_witness :
    now0.sec < 86400 ∧
    ∀ req ∈ (place_trade envOK now0 "BUY" "LIMIT" "EURUSD" "1" 2 1 3 none (some "DAY")).2,
      req.expiration = some (now0.day * 86400 + 86399) :=
  ⟨by norm_num [now0],
    (c3_expiration envOK now0 "BUY" "LIMIT" "EURUSD" "1" 2 1 3 none (by norm_num [now0])).1⟩

/-- C3 (counterexample): at Friday 1970-01-02 23:59:59 (`nowFri`) a
WEEK order is built whose expiration (timestamp 172799) EQUALS the
build timestamp — 23:59:59 of that same Friday — so the expiry is not
strictly in the future and does not advance to the following week's
Friday (whose end of day is timestamp 777599). -/
theorem c3_week_not_future :
    ((place_trade envOK nowFri "BUY" "LIMIT" "EURUSD" "1" 2 1 3 none (some "WEEK")).2.map
      (fun r => r.expiration)) = [some 172799] ∧
    nowFri.weekday = 4 ∧ nowFri.timestamp = 172799 ∧
    ¬ nowFri.timestamp < (172799 : ℤ) := by
  have hexp : expirationOutcome nowFri (some "WEEK") = .specified 172799 := by decide
  refine ⟨?_, by decide, by decide, by decide⟩
  simp only [place_trade, place_tradeE, envOK, siOK, pyContainsPct_1, pyFloat_lit_1,
    orderTypeMt5_buy_limit, hexp, TRADE_RETCODE_DONE]
  norm_num [mkRequest]
  rw [if_neg (by decide : ¬(ExpOutcome.specified 172799 = ExpOutcome.invalid))]
  simp [pyCommentField]

/-- C4 (amended): with COUNT = 1 — and the terminal checks passing, so
that execution reaches the ladder arithmetic — `place_multiple_orders`
fails (`False`) having sent no orders, but the failure is produced by
PERFORMING the float division by zero
`(end_price - entry_price) / (num_orders - 1)` and catching the
resulting `ZeroDivisionError` in the function's `try/except`. -/
theorem c4_count_one (env : Mt5Env) (now : PyTime) (ot okind sym rl : String)
    (ep eq2 slp tpp : ℚ) (c ex : Option String)
    (hsel : env.symbolSelect = true) (acc : AccountInfo) (hacc : env.accountInfo = some acc)
    (si : SymbolInfo) (hsi : env.symbolInfo = some si) :
    place_multiple_ordersE env now ot okind sym rl ep eq2 1 slp tpp c ex
      = (.error .zeroDivision, []) ∧
    place_multiple_orders env now ot okind sym rl ep eq2 1 slp tpp c ex = (false, []) := by
  have h1 : place_multiple_ordersE env now ot okind sym rl ep eq2 1 slp tpp c ex
      = (.error .zeroDivision, []) := by
    simp [place_multiple_ordersE, hsel, hacc, hsi]
  exact ⟨h1, by simp [place_multiple_orders, h1]⟩

/-- C4 (witness): the amended theorem at a concrete accepting terminal. -/
theorem c4_count_one_witness :
    place_multiple_ordersE envOK now0 "BUY" "LIMIT" "EURUSD" "0.5" 100 200 1 90 210 none none
      = (.error .zeroDivision, []) ∧
    place_multiple_orders envOK now0 "BUY" "LIMIT" "EURUSD" "0.5" 100 200 1 90 210 none none
      = (false, []) :=
  c4_count_one envOK now0 "BUY" "LIMIT" "EURUSD" "0.5" 100 200 90 210 none none rfl
    { balance := 100 } rfl siOK rfl

/-- C4 (counterexample): at a concrete COUNT = 1 range signal the body
raises `ZeroDivisionError` — the division by zero IS performed, against
the claim's "without performing a division by zero"; the caught
exception yields the failure outcome with no orders. -/
theorem c4_division_by_zero_performed :
    place_multiple_ordersE envOK now0 "BUY" "LIMIT" "EURUSD" "1%" 100 200 1 90 210 none none
      = (.error .zeroDivision, []) ∧
    place_multiple_orders envOK now0 "BUY" "LIMIT" "EURUSD" "1%" 100 200 1 90 210 none none
      = (false, []) := by
  have h1 : place_multiple_ordersE envOK now0 "BUY" "LIMIT" "EURUSD" "1%" 100 200 1 90 210
      none none = (.error .zeroDivision, []) := by
    simp [place_multiple_ordersE, envOK]
  exact ⟨h1, by simp [place_multiple_orders, h1]⟩

/-- C10 (amended): the range grammar accepts the COUNT token `"0"`;
with COUNT = 0 and fixed-lot sizing `place_multiple_orders` sends no
orders and still returns `True` (reported upstream as a successfully
placed trade), while with percentage sizing the division
`total_risk_percentage / num_orders` raises `ZeroDivisionError` and the
function returns `False` (still no orders). -/
theorem c10_count_zero (env : Mt5Env) (now : PyTime) (ot okind sym rl : String)
    (ep eq2 slp tpp : ℚ) (c ex : Option String)
    (hsel : env.symbolSelect = true) (acc : AccountInfo) (hacc : env.accountInfo = some acc)
    (si : SymbolInfo) (hsi : env.symbolInfo = some si) :
    (parse_multiple_orders_signal
        ["SELL", "LIMIT", "BTCUSD", "0.05", "98200.00", "98600.00", "0", "98900.00", "98000.00"]
      = some { order_type := "SELL", order_kind := "LIMIT", symbol := "BTCUSD",
               risk_or_lot := "0.05", entry_price_range := "98200.00",
               end_price_range := "98600.00", num_orders := "0", sl := "98900.00",
               tp := "98000.00", expiration := none, comment := none }) ∧
    (pyEndsWithPct rl = false → ∀ v, pyFloat rl = some v →
      place_multiple_orders env now ot okind sym rl ep eq2 0 slp tpp c ex = (true, [])) ∧
    (pyEndsWithPct rl = true → ∀ t, pyFloat (pyDropLast rl) = some t →
      place_multiple_orders env now ot okind sym rl ep eq2 0 slp tpp c ex = (false, [])) := by
  refine ⟨by decide, ?_, ?_⟩
  · intro hp v hv
    have h1 : place_multiple_ordersE env now ot okind sym rl ep eq2 0 slp tpp c ex
        = (.ok true, []) := by
      simp [place_multiple_ordersE, hsel, hacc, hsi, hp, hv, pmoLoop]
    simp [place_multiple_orders, h1]
  · intro hp t ht
    have h1 : place_multiple_ordersE env now ot okind sym rl ep eq2 0 slp tpp c ex
        = (.error .zeroDivision, []) := by
      simp [place_multiple_ordersE, hsel, hacc, hsi, hp, ht]
    simp [place_multiple_orders, h1]

/-- C10 (witness): the amended theorem at a concrete fixed-lot COUNT=0
signal: no orders, overall success. -/
theorem c10_count_zero_witness :
    place_multiple_orders envOK now0 "SELL" "LIMIT" "BTCUSD" "0.05" 98200 98600 0 98900 98000
      none none = (true, []) :=
  (c10_count_zero envOK now0 "SELL" "LIMIT" "BTCUSD" "0.05" 98200 98600 98900 98000 none none
    rfl { balance := 100 } rfl siOK rfl).2.1 (by decide) (1 / 20) pyFloat_lit_005

/-- C10 (counterexample): the same COUNT = 0 range signal with
percentage sizing `"5%"` does NOT return success: the per-order risk
division raises `ZeroDivisionError`, caught into a `False` outcome —
refuting the claim's "nevertheless returns overall success (True)". -/
theorem c10_pct_count_zero_fails :
    place_multiple_ordersE envOK now0 "SELL" "LIMIT" "BTCUSD" "5%" 98200 98600 0 98900 98000
      none none = (.error .zeroDivision, []) ∧
    place_multiple_orders envOK now0 "SELL" "LIMIT" "BTCUSD" "5%" 98200 98600 0 98900 98000
      none none = (false, []) := by
  have hd : pyFloat (pyDropLast "5%") = some 5 := by
    have h : pyDropLast "5%" = "5" := by decide
    rw [h, pyFloat_lit_5]
  have h1 : place_multiple_ordersE envOK now0 "SELL" "LIMIT" "BTCUSD" "5%" 98200 98600 0 98900
      98000 none none = (.error .zeroDivision, []) := by
    simp [place_multiple_ordersE, envOK, (by decide : pyEndsWithPct "5%" = true), hd]
  exact ⟨h1, by simp [place_multiple_orders, h1]⟩

/-- Every request sent by a fixed-lot `place_multiple_orders` call
carries exactly the literal volume. -/
theorem place_multiple_orders_fixed_volume (env : Mt5Env) (now : PyTime)
    (ot okind sym rl : String) (ep eq2 : ℚ) (n : ℕ) (slp tpp : ℚ)
    (c ex : Option String) (v : ℚ)
    (hp : pyEndsWithPct rl = false) (hv : pyFloat rl = some v) :
    ∀ req ∈ (place_multiple_orders env now ot okind sym rl ep eq2 n slp tpp c ex).2,
      req.volume = v := by
  intro req hreq
  rw [place_multiple_orders_snd] at hreq
  unfold place_multiple_ordersE at hreq
  rw [hp] at hreq
  simp only [Bool.false_eq_true, if_false, hv] at hreq
  repeat' split at hreq
  all_goals try simp at hreq
  all_goals {
    obtain ⟨L, h2, -, -, hspec⟩ :=
      pmoLoop_spec env now _ _ (SizingMode.fixed v) ot okind sym ep _ slp tpp c ex n 0 []
    rw [h2] at hreq
    simp at hreq
    obtain ⟨j, hj⟩ := List.mem_iff_get?.mp hreq
    obtain ⟨v', otype, hrv, hb, hot, heo, hmk⟩ := hspec j req hj
    have hvv : v' = v := by
      by_cases h0 : v = 0
      · simp [rungVolume, h0] at hrv
      · simp [rungVolume, h0] at hrv
        exact hrv.symm
    rw [hmk, hvv]
    simp [mkRequest] }

/-- C9 (amended): with fixed-lot sizing the same literal volume is
reused for every rung of the ladder, but contrary to the claim it IS
validated per rung against `[volume_min, volume_max]`: every sent rung
request carries the literal volume, and an out-of-range literal volume
makes the whole call fail at the first rung's check with no orders
sent. -/
theorem c9_fixed_lot_rungs (env : Mt5Env) (now : PyTime) (ot okind sym rl : String)
    (ep eq2 slp tpp : ℚ) (n : ℕ) (c ex : Option String) (v : ℚ)
    (hp : pyEndsWithPct rl = false) (hv : pyFloat rl = some v) (hv0 : v ≠ 0) :
    (∀ req ∈ (place_multiple_orders env now ot okind sym rl ep eq2 n slp tpp c ex).2,
        req.volume = v) ∧
    (∀ si, env.symbolSelect = true → ∀ acc, env.accountInfo = some acc →
      env.symbolInfo = some si → 1 ≤ n → (v < si.volume_min ∨ v > si.volume_max) →
      place_multiple_orders env now ot okind sym rl ep eq2 n slp tpp c ex = (false, [])) := by
  constructor
  · exact place_multiple_orders_fixed_volume env now ot okind sym rl ep eq2 n slp tpp c ex v hp hv
  · intro si hsel acc hacc hsi hn hout
    rcases Nat.lt_or_ge n 2 with h2 | h2
    · have hn1 : n = 1 := by omega
      subst hn1
      have h1 : place_multiple_ordersE env now ot okind sym rl ep eq2 1 slp tpp c ex
          = (.error .zeroDivision, []) := by
        simp [place_multiple_ordersE, hsel, hacc, hsi]
      simp [place_multiple_orders, h1]
    · obtain ⟨fuel, rfl⟩ : ∃ f, n = f + 1 := ⟨n - 1, by omega⟩
      have h1 : place_multiple_ordersE env now ot okind sym rl ep eq2 (fuel + 1) slp tpp c ex
          = (.ok false, []) := by
        simp only [place_multiple_ordersE, hsel, hacc, hsi, hp, hv]
        rw [if_neg (by simp)]
        rw [if_neg (by omega : ¬(fuel + 1 = 1))]
        simp only [Bool.false_eq_true, if_false]
        rw [pmoLoop]
        simp [rungVolume, hv0, hout]
      simp [place_multiple_orders, h1]

/-- C9 (witness): the amended theorem at fixed lot `"0.5"` on `siOK`
(volume_min 1): every sent request would carry volume 1/2, and since
1/2 < volume_min the call fails with no orders. -/
theorem c9_fixed_lot_rungs_witness :
    (∀ req ∈ (place_multiple_orders envOK now0 "BUY" "LIMIT" "EURUSD" "0.5" 100 200 3 90 210
        none none).2, req.volume = 1 / 2) ∧
    place_multiple_orders envOK now0 "BUY" "LIMIT" "EURUSD" "0.5" 100 200 3 90 210 none none
      = (false, []) := by
  have h := c9_fixed_lot_rungs envOK now0 "BUY" "LIMIT" "EURUSD" "0.5" 100 200 90 210 3 none
    none (1 / 2) (by decide) pyFloat_lit_half (by norm_num)
  exact ⟨h.1, h.2 siOK rfl { balance := 100 } rfl rfl (by norm_num)
    (Or.inl (by norm_num [siOK]))⟩

/-- C9 (counterexample): fixed lot `"0.5"` with `volume_min = 1` and 3
rungs: were the literal volume reused without per-rung validation,
three orders with volume 1/2 would be attempted; instead the first
rung's bounds check fails the whole call and NO request is ever passed
to `mt5.order_send`. -/
theorem c9_fixed_lot_validated :
    place_multiple_orders envOK now0 "BUY" "LIMIT" "EURUSD" "0.5" 100 200 3 90 210 none none
      = (false, []) ∧
    pyEndsWithPct "0.5" = false ∧ pyFloat "0.5" = some (1 / 2) ∧
    (1 / 2 : ℚ) < siOK.volume_min := by
  refine ⟨?_, by decide, pyFloat_lit_half, by norm_num [siOK]⟩
  have h1 : place_multiple_ordersE envOK now0 "BUY" "LIMIT" "EURUSD" "0.5" 100 200 3 90 210
      none none = (.ok false, []) := by
    simp only [place_multiple_ordersE, envOK, (by decide : pyEndsWithPct "0.5" = false),
      pyFloat_lit_half]
    rw [if_neg (by simp)]
    rw [if_neg (by omega : ¬(3 = 1))]
    simp only [Bool.false_eq_true, if_false]
    rw [pmoLoop]
    norm_num [rungVolume, siOK]
  simp [place_multiple_orders, h1]

/-- C2: for a percentage-sized range signal with COUNT ≥ 2, every
request passed to `mt5.order_send` is priced on the evenly spaced
ladder `entry + i·(end − entry)/(COUNT − 1)` and its volume is exactly
the Position Sizer's output for the per-rung risk `total/COUNT` at that
rung's price; at most COUNT orders are attempted and an overall `True`
outcome means exactly COUNT were; the first ladder price is the range
start and the last is the range end. -/
theorem c2_range_ladder (env : Mt5Env) (now : PyTime) (ot okind sym rl : String)
    (ep eq2 slp tpp : ℚ) (n : ℕ) (c ex : Option String) (r : ℚ) (acc : AccountInfo)
    (hacc : env.accountInfo = some acc) (hn : 2 ≤ n)
    (hpct : pyEndsWithPct rl = true) (hr : pyFloat (pyDropLast rl) = some r) :
    ((place_multiple_orders env now ot okind sym rl ep eq2 n slp tpp c ex).2.length ≤ n) ∧
    ((place_multiple_orders env now ot okind sym rl ep eq2 n slp tpp c ex).1 = true →
      (place_multiple_orders env now ot okind sym rl ep eq2 n slp tpp c ex).2.length = n) ∧
    (∀ j req,
      (place_multiple_orders env now ot okind sym rl ep eq2 n slp tpp c ex).2.get? j = some req →
      req.price = ep + (eq2 - ep) / ((n : ℚ) - 1) * (j : ℚ) ∧
      calculate_lot_size env acc.balance (r / (n : ℚ)) sym req.price slp
        = .ok (some req.volume)) ∧
    (ep + (eq2 - ep) / ((n : ℚ) - 1) * ((0 : ℕ) : ℚ) = ep) ∧
    (ep + (eq2 - ep) / ((n : ℚ) - 1) * ((n : ℚ) - 1) = eq2) := by
  have hne : ((n : ℚ) - 1) ≠ 0 := by
    have h2 : (2 : ℚ) ≤ (n : ℚ) := by exact_mod_cast hn
    linarith
  have harith1 : ep + (eq2 - ep) / ((n : ℚ) - 1) * ((0 : ℕ) : ℚ) = ep := by
    push_cast
    ring
  have harith2 : ep + (eq2 - ep) / ((n : ℚ) - 1) * ((n : ℚ) - 1) = eq2 := by
    rw [div_mul_cancel₀ _ hne]
    ring
  by_cases hsel : env.symbolSelect = false
  · have hE : place_multiple_ordersE env now ot okind sym rl ep eq2 n slp tpp c ex
        = (.ok false, []) := by
      simp [place_multiple_ordersE, hsel]
    have hw : place_multiple_orders env now ot okind sym rl ep eq2 n slp tpp c ex
        = (false, []) := by
      simp [place_multiple_orders, hE]
    rw [hw]
    exact ⟨by simp, by simp, by simp, harith1, harith2⟩
  · cases hsi : env.symbolInfo with
    | none =>
      have hE : place_multiple_ordersE env now ot okind sym rl ep eq2 n slp tpp c ex
          = (.ok false, []) := by
        simp [place_multiple_ordersE, hsel, hacc, hsi]
      have hw : place_multiple_orders env now ot okind sym rl ep eq2 n slp tpp c ex
          = (false, []) := by
        simp [place_multiple_orders, hE]
      rw [hw]
      exact ⟨by simp, by simp, by simp, harith1, harith2⟩
    | some si =>
      have hE : place_multiple_ordersE env now ot okind sym rl ep eq2 n slp tpp c ex
          = pmoLoop env now si acc.balance (.pct (r / (n : ℚ))) ot okind sym ep
              ((eq2 - ep) / ((n : ℚ) - 1)) slp tpp c ex n 0 [] := by
        simp only [place_multiple_ordersE, hacc, hsi, hpct, hr]
        rw [if_neg hsel]
        rw [if_neg (by omega : ¬(n = 1))]
        rw [if_neg (by omega : ¬(n = 0))]
        simp
      obtain ⟨L, h2, hlen, hok, hspec⟩ :=
        pmoLoop_spec env now si acc.balance (.pct (r / (n : ℚ))) ot okind sym ep
          ((eq2 - ep) / ((n : ℚ) - 1)) slp tpp c ex n 0 []
      have hsent : (place_multiple_orders env now ot okind sym rl ep eq2 n slp tpp c ex).2
          = L := by
        rw [place_multiple_orders_snd, hE, h2]
        simp
      refine ⟨by rw [hsent]; exact hlen, ?_, ?_, harith1, harith2⟩
      · intro hT
        have hokE := place_multiple_orders_ok env now ot okind sym rl ep eq2 n slp tpp c ex hT
        rw [hE] at hokE
        rw [hsent]
        exact hok hokE
      · intro j req hj
        rw [hsent] at hj
        obtain ⟨v, otype, hrv, hb, hot, heo, hmk⟩ := hspec j req hj
        have hprice : req.price = ep + (eq2 - ep) / ((n : ℚ) - 1) * (j : ℚ) := by
          rw [hmk]
          simp [mkRequest]
        have hvol : req.volume = v := by
          rw [hmk]
          simp [mkRequest]
        refine ⟨hprice, ?_⟩
        rw [hprice, hvol]
        simpa [rungVolume] using hrv

/-- C2 (witness): the ladder theorem at the spec's example — entry 100,
end 200, COUNT 5, total risk 10% (per-rung risk 10/5 = 2%). -/
theorem c2_range_ladder_witness :
    ((place_multiple_orders envOK now0 "BUY" "LIMIT" "EURUSD" "10%" 100 200 5 50 300
        none none).2.length ≤ 5) ∧
    ((place_multiple_orders envOK now0 "BUY" "LIMIT" "EURUSD" "10%" 100 200 5 50 300
        none none).1 = true →
      (place_multiple_orders envOK now0 "BUY" "LIMIT" "EURUSD" "10%" 100 200 5 50 300
        none none).2.length = 5) ∧
    (∀ j req,
      (place_multiple_orders envOK now0 "BUY" "LIMIT" "EURUSD" "10%" 100 200 5 50 300
        none none).2.get? j = some req →
      req.price = 100 + (200 - 100) / (((5 : ℕ) : ℚ) - 1) * (j : ℚ) ∧
      calculate_lot_size envOK 100 ((10 : ℚ) / ((5 : ℕ) : ℚ)) "EURUSD" req.price 50
        = .ok (some req.volume)) ∧
    ((100 : ℚ) + (200 - 100) / (((5 : ℕ) : ℚ) - 1) * ((0 : ℕ) : ℚ) = 100) ∧
    ((100 : ℚ) + (200 - 100) / (((5 : ℕ) : ℚ) - 1) * (((5 : ℕ) : ℚ) - 1) = 200) :=
  c2_range_ladder envOK now0 "BUY" "LIMIT" "EURUSD" "10%" 100 200 50 300 5 none none 10
    { balance := 100 } rfl (by norm_num) (by decide)
    (by
      have h : pyDropLast "10%" = "10" := by decide
      rw [h, pyFloat_lit_10])

/-- C8 (amended): every request either place function passes to
`mt5.order_send` carries the comment verbatim when a nonempty comment
was parsed, and OMITS the `"comment"` key entirely otherwise — it is
never attached as an empty string. -/
theorem c8_comment_field (env : Mt5Env) (now : PyTime)
    (ot okind sym rl : String) (ep eq2 slp tpp : ℚ) (n : ℕ) (c ex : Option String) :
    ((place_trade env now ot okind sym rl ep slp tpp c ex).2.all
        (fun req => req.comment == pyCommentField c)) = true ∧
    ((place_multiple_orders env now ot okind sym rl ep eq2 n slp tpp c ex).2.all
        (fun req => req.comment == pyCommentField c)) = true := by
  constructor
  · rw [List.all_eq_true]
    intro req hreq
    rw [place_trade_snd] at hreq
    obtain ⟨v, otype, -, -, hmk⟩ :=
      place_tradeE_sent env now ot okind sym rl ep slp tpp c ex req hreq
    rw [hmk]
    simp [mkRequest]
  · rw [List.all_eq_true]
    intro req hreq
    rw [place_multiple_orders_snd] at hreq
    obtain ⟨v, otype, p, -, -, hmk⟩ :=
      place_multiple_ordersE_sent env now ot okind sym rl ep eq2 n slp tpp c ex req hreq
    rw [hmk]
    simp [mkRequest]

/-- C8 (counterexample): a single order built from a signal WITHOUT a
comment contains no comment key at all (`none`), not an empty-string
comment — against the claim's "the empty string otherwise; never
omitted". -/
theorem c8_comment_omitted :
    ((place_trade envOK now0 "BUY" "LIMIT" "EURUSD" "1" 2 1 3 none none).2.map
      (fun r => r.comment)) = [none] ∧
    (none : Option String) ≠ some "" := by
  refine ⟨?_, by simp⟩
  simp only [place_trade, place_tradeE, envOK, siOK, pyContainsPct_1, pyFloat_lit_1,
    orderTypeMt5_buy_limit, expOut_none_gtc, TRADE_RETCODE_DONE]
  norm_num [mkRequest, pyCommentField]
  rw [if_neg (by decide : ¬(ExpOutcome.gtc = ExpOutcome.invalid))]
  simp

theorem optTail_expiration (a : List Char) (b : List String) :
    (optTail a b).1 = none ∨ (optTail a b).1 = some "DAY" ∨ (optTail a b).1 = some "WEEK" := by
  unfold optTail
  repeat' split
  all_goals simp

/-- A successful range-grammar match forces tokens 7, 8, 9 to exist and
to be, respectively, a pure-integer token, a full price token, and a
token with a numeric prefix. -/
theorem parse_multiple_some_facts (ts : List String) (g : RangeFields)
    (h : parse_multiple_orders_signal ts = some g) :
    ∃ t7 t8 t9, ts.get? 6 = some t7 ∧ ts.get? 7 = some t8 ∧ ts.get? 8 = some t9 ∧
      isDigitsTok t7 = true ∧ isNumTok t8 = true ∧ (numPre t9.data).isSome = true := by
  rcases ts with _ | ⟨t1, _ | ⟨t2, _ | ⟨t3, _ | ⟨t4, _ | ⟨t5, _ | ⟨t6, _ | ⟨t7, _ | ⟨t8, _ |
    ⟨t9, rest⟩⟩⟩⟩⟩⟩⟩⟩⟩ <;> simp only [parse_multiple_orders_signal] at h
  all_goals first
  | exact Option.noConfusion h
  | skip
  split at h
  case isTrue hcond =>
    refine ⟨t7, t8, t9, rfl, rfl, rfl, ?_, ?_, ?_⟩
    · simp only [Bool.and_eq_true] at hcond
      exact hcond.1.2
    · simp only [Bool.and_eq_true] at hcond
      exact hcond.2
    · split at h
      case h_1 p heq => rw [heq]; rfl
      case h_2 => exact Option.noConfusion h
  case isFalse => exact Option.noConfusion h

/-- C5: the per-line dispatch tries the range grammar first and the
single grammar only on range failure, returning the first successful
match's fields; a single-grammar line lacking both a second price and
an order count (no pure-integer token in position 7 followed by a price
token and a numeric-prefixed token, the shape the range grammar reads
as COUNT SL TP) is never matched by the range grammar; and when neither
grammar matches, the invalid-format reply names both expected formats. -/
theorem c5_grammar_order :
    (∀ ts f, parse_multiple_orders_signal ts = some f → processLine ts = .range f) ∧
    (∀ ts f, parse_multiple_orders_signal ts = none → parse_trade_signal ts = some f →
      processLine ts = .single f) ∧
    (∀ ts, parse_multiple_orders_signal ts = none → parse_trade_signal ts = none →
      processLine ts = .invalid) ∧
    (∀ ts f, parse_trade_signal ts = some f → hasRangeTail ts = false →
      parse_multiple_orders_signal ts = none) ∧
    (∀ line, strContains (invalidMsg line) singleFormatDesc ∧
      strContains (invalidMsg line) rangeFormatDesc) := by
  refine ⟨?_, ?_, ?_, ?_, ?_⟩
  · intro ts f h
    simp [processLine, h]
  · intro ts f h1 h2
    simp [processLine, h1, h2]
  · intro ts h1 h2
    simp [processLine, h1, h2]
  · intro ts f hs ht
    by_contra hne
    obtain ⟨g, hg⟩ := Option.ne_none_iff_exists'.mp hne
    obtain ⟨t7, t8, t9, h6, h7, h8, hd, hnum, hpre⟩ := parse_multiple_some_facts ts g hg
    unfold hasRangeTail at ht
    rw [h6, h7, h8] at ht
    simp [hd, hnum, hpre] at ht
  · intro line
    constructor
    · exact ⟨("❌ Invalid signal format: " ++ line
          ++ "\nExpected format for single orders: ").data,
        ("\nExpected format for multiple orders: " ++ rangeFormatDesc).data, by
          simp [invalidMsg, String.data_append, List.append_assoc]⟩
    · exact ⟨("❌ Invalid signal format: " ++ line ++ "\nExpected format for single orders: "
          ++ singleFormatDesc ++ "\nExpected format for multiple orders: ").data, [], by
          simp [invalidMsg, String.data_append, List.append_assoc]⟩

/-- C5 (witness): a plain 7-token single-order line is not matched by
the range grammar, and the invalid reply names both formats. -/
theorem c5_grammar_order_witness :
    parse_multiple_orders_signal ["BUY", "LIMIT", "EURUSD", "1%", "1.1000", "1.0950", "1.1100"]
      = none ∧
    (strContains (invalidMsg "hello") singleFormatDesc ∧
      strContains (invalidMsg "hello") rangeFormatDesc) :=
  ⟨c5_grammar_order.2.2.2.1 ["BUY", "LIMIT", "EURUSD", "1%", "1.1000", "1.0950", "1.1100"]
      { order_type := "BUY", order_kind := "LIMIT", symbol := "EURUSD", risk_or_lot := "1%",
        entry_price := "1.1000", sl := "1.0950", tp := "1.1100", expiration := none,
        comment := none } (by decide) (by decide),
    c5_grammar_order.2.2.2.2 "hello"⟩

/-- C6 (amended): keyword matching in BOTH grammars is case-sensitive
for every keyword token, including side, kind and expiration: any
parsed signal necessarily carries the exact uppercase keywords; the
`.upper()` normalisation in the source runs only after parsing, on
fields that are already uppercase. -/
theorem c6_keyword_case :
    (∀ ts f, parse_trade_signal ts = some f →
      (f.order_type = "BUY" ∨ f.order_type = "SELL") ∧
      (f.order_kind = "LIMIT" ∨ f.order_kind = "STOP" ∨ f.order_kind = "MARKET") ∧
      (f.expiration = none ∨ f.expiration = some "DAY" ∨ f.expiration = some "WEEK")) ∧
    (∀ ts g, parse_multiple_orders_signal ts = some g →
      (g.order_type = "BUY" ∨ g.order_type = "SELL") ∧
      (g.order_kind = "LIMIT" ∨ g.order_kind = "STOP") ∧
      (g.expiration = none ∨ g.expiration = some "DAY" ∨ g.expiration = some "WEEK")) := by
  constructor
  · intro ts f h
    rcases ts with _ | ⟨t1, _ | ⟨t2, _ | ⟨t3, _ | ⟨t4, _ | ⟨t5, _ | ⟨t6, _ | ⟨t7, rest⟩⟩⟩⟩⟩⟩⟩ <;>
      simp only [parse_trade_signal] at h
    all_goals first
    | exact Option.noConfusion h
    | skip
    split at h
    case isTrue hcond =>
      split at h
      case h_1 tpc tpr heq =>
        simp only [Option.some_inj] at h
        subst h
        simp only [Bool.and_eq_true, Bool.or_eq_true, decide_eq_true_eq] at hcond
        exact ⟨hcond.1.1.1.1.1, or_assoc.mp hcond.1.1.1.1.2, optTail_expiration _ _⟩
      case h_2 => exact Option.noConfusion h
    case isFalse => exact Option.noConfusion h
  · intro ts g h
    rcases ts with _ | ⟨t1, _ | ⟨t2, _ | ⟨t3, _ | ⟨t4, _ | ⟨t5, _ | ⟨t6, _ | ⟨t7, _ | ⟨t8, _ |
      ⟨t9, rest⟩⟩⟩⟩⟩⟩⟩⟩⟩ <;> simp only [parse_multiple_orders_signal] at h
    all_goals first
    | exact Option.noConfusion h
    | skip
    split at h
    case isTrue hcond =>
      split at h
      case h_1 tpc tpr heq =>
        simp only [Option.some_inj] at h
        subst h
        simp only [Bool.and_eq_true, Bool.or_eq_true, decide_eq_true_eq] at hcond
        exact ⟨hcond.1.1.1.1.1.1.1, hcond.1.1.1.1.1.1.2, optTail_expiration _ _⟩
      case h_2 => exact Option.noConfusion h
    case isFalse => exact Option.noConfusion h

/-- C6 (witness): the amended theorem at an uppercase line. -/
theorem c6_keyword_case_witness :
    (let f : SingleFields :=
      { order_type := "BUY", order_kind := "LIMIT", symbol := "EURUSD", risk_or_lot := "1%",
        entry_price := "1.1", sl := "1.0", tp := "1.2", expiration := none, comment := none };
     (f.order_type = "BUY" ∨ f.order_type = "SELL") ∧
      (f.order_kind = "LIMIT" ∨ f.order_kind = "STOP" ∨ f.order_kind = "MARKET") ∧
      (f.expiration = none ∨ f.expiration = some "DAY" ∨ f.expiration = some "WEEK")) :=
  c6_keyword_case.1 ["BUY", "LIMIT", "EURUSD", "1%", "1.1", "1.0", "1.2"]
    { order_type := "BUY", order_kind := "LIMIT", symbol := "EURUSD", risk_or_lot := "1%",
      entry_price := "1.1", sl := "1.0", tp := "1.2", expiration := none, comment := none }
    (by decide)

/-- C6 (counterexample): the lowercase line `buy limit EURUSD 1% …` is
matched by NEITHER grammar (the regex keyword literals are
case-sensitive and no upper-casing happens before matching), while the
uppercase spelling matches; a lowercase `day` expiration token is
captured as a free-text comment, not as an expiration. -/
theorem c6_lowercase_rejected :
    parse_trade_signal ["buy", "limit", "EURUSD", "1%", "1.1", "1.0", "1.2"] = none ∧
    parse_multiple_orders_signal ["buy", "limit", "EURUSD", "1%", "1.1", "1.0", "1.2"] = none ∧
    processLine ["buy", "limit", "EURUSD", "1%", "1.1", "1.0", "1.2"] = .invalid ∧
    parse_trade_signal ["BUY", "LIMIT", "EURUSD", "1%", "1.1", "1.0", "1.2"] ≠ none ∧
    parse_trade_signal ["BUY", "LIMIT", "EURUSD", "1%", "1.1", "1.0", "1.2", "day"]
      = some { order_type := "BUY", order_kind := "LIMIT", symbol := "EURUSD",
               risk_or_lot := "1%", entry_price := "1.1", sl := "1.0", tp := "1.2",
               expiration := none, comment := some "day" } := by
  refine ⟨by decide, by decide, by decide, by decide, by decide⟩
